import Mathlib

/-!
Shallow embedding of the txmpp framed packet transport
(`src/asynctcpsocket.cc`, class `AsyncTCPSocket`) and of the hello
message dispatch of the hello example (`src/examples/hello/xmppthread.cc`,
`XmppThread::OnMessage`).

Buffers are modelled as byte lists: the C++ pair (buffer, fill cursor)
`(inbuf_, inpos_)` becomes the list of the `inpos_` defined bytes, so the
cursor is the length of the list.  Bytes are `Nat` (values < 256 on a real
wire; only the two length-prefix bytes of a frame are ever interpreted
arithmetically).  The underlying `AsyncSocket` is external: each call to
`socket_->Send` is represented by an `Int` parameter `res` — the value
that call returned — and the bytes the socket accepted are appended to a
ghost `wire` trace.  `socket_->Recv` is represented by an
`Option (List Nat)` parameter: `none` for a negative return (error), and
`some bytes` for the bytes it wrote, truncated to the free space
`insize_ - inpos_` exactly as `Recv(inbuf_ + inpos_, insize_ - inpos_)`
is bounded.
-/

namespace Txmpp

/-- Constant from asynctcpsocket.cc line 42: `MAX_PACKET_SIZE = 64 * 1024`. -/
def MAX_PACKET_SIZE : Nat := 64 * 1024

/-- Constant from asynctcpsocket.cc line 45: size of the `uint16` packet length. -/
def PKT_LEN_SIZE : Nat := 2

/-- Constant from asynctcpsocket.cc line 47: `BUF_SIZE = MAX_PACKET_SIZE + PKT_LEN_SIZE`. -/
def BUF_SIZE : Nat := MAX_PACKET_SIZE + PKT_LEN_SIZE

/-- POSIX errno value used by `Send` for oversized payloads. -/
def EMSGSIZE : Nat := 90

/-- State of one non-listening `AsyncTCPSocket`.  `inbuf` holds the bytes
`inbuf_[0, inpos_)`, `outbuf` the bytes `outbuf_[0, outpos_)`.  `wire` is a
ghost trace of every byte the underlying socket accepted, and `lastError`
records the last value passed to `socket_->SetError` by this class. -/
structure TcpState where
  inbuf : List Nat
  outbuf : List Nat
  wire : List Nat
  lastError : Option Nat
deriving Repr, DecidableEq

/-- A freshly constructed transport (constructor lines 63-84): both cursors 0. -/
def freshState : TcpState :=
  { inbuf := [], outbuf := [], wire := [], lastError := none }

/-- Events signalled by the transport to its listeners: `SignalReadPacket`,
`SignalNewConnection`, `SignalConnect`, `SignalClose`. -/
inductive Event where
  | packet (payload : List Nat)
  | newConnection
  | connect
  | close (err : Int)
deriving Repr, DecidableEq

/-- True exactly on `Event.packet` events. -/
def Event.isPacket : Event → Bool
  | .packet _ => true
  | _ => false

/-- The 2+n bytes `Send` places in `outbuf_` for payload `p` (lines 101-104):
`HostToNetwork16(static_cast<uint16>(cb))` followed by the payload.  The
cast truncates the length modulo 2^16, and network order puts the high
byte first. -/
def encodeFrame (p : List Nat) : List Nat :=
  (p.length % 65536) / 256 :: p.length % 256 :: p

/-- One call to `AsyncTCPSocket::Flush` (lines 162-177), given the return
value `res` of the inner `socket_->Send(outbuf_, outpos_)`.  On progress
the first `res` bytes leave for the wire and the rest are compacted to the
front; `res > outpos_` trips `ASSERT(false)` and returns -1. -/
def Flush (st : TcpState) (res : Int) : Int × TcpState :=
  if res ≤ 0 then (res, st)
  else if res.toNat ≤ st.outbuf.length then
    (res, { st with outbuf := st.outbuf.drop res.toNat,
                    wire := st.wire ++ st.outbuf.take res.toNat })
  else (-1, st)

/-- `AsyncTCPSocket::Send` (lines 91-115): reject oversized payloads with
EMSGSIZE; silently drop (report success) while send-blocked; otherwise
frame into `outbuf_` and flush once, discarding the frame if the flush
made no progress. -/
def Send (st : TcpState) (p : List Nat) (res : Int) : Int × TcpState :=
  if p.length > MAX_PACKET_SIZE then
    (-1, { st with lastError := some EMSGSIZE })
  else if st.outbuf.length ≠ 0 then
    ((p.length : Int), st)
  else
    let st1 := { st with outbuf := encodeFrame p }
    let r := Flush st1 res
    if r.1 ≤ 0 then (r.1, { r.2 with outbuf := [] })
    else ((p.length : Int), r.2)

/-- `AsyncTCPSocket::SendRaw` (lines 127-137): append unframed bytes if they
fit, then flush. -/
def SendRaw (st : TcpState) (p : List Nat) (res : Int) : Int × TcpState :=
  if st.outbuf.length + p.length > BUF_SIZE then
    (-1, { st with lastError := some EMSGSIZE })
  else
    Flush { st with outbuf := st.outbuf ++ p } res

/-- `AsyncTCPSocket::ProcessInput` (lines 139-160): repeatedly read a 2-byte
big-endian length, and while a whole frame is buffered signal its payload
and shift the remainder down.  Returns the signalled payloads in order and
the final buffer contents. -/
def processInput : List Nat → List (List Nat) × List Nat
  | [] => ([], [])
  | [b] => ([], [b])
  | b0 :: b1 :: rest =>
    if rest.length < b0 * 256 + b1 then ([], b0 :: b1 :: rest)
    else
      let r := processInput (rest.drop (b0 * 256 + b1))
      (rest.take (b0 * 256 + b1) :: r.1, r.2)
termination_by data => data.length
decreasing_by
  simp only [List.length_drop, List.length_cons]
  omega

/-- The non-listening branch of `AsyncTCPSocket::OnReadEvent`
(lines 200-219): receive into the free space of `inbuf_`, extract frames,
and if the buffer is still completely full afterwards log, `ASSERT(false)`
and reset the cursor to 0.  `recvd = none` models `Recv` returning a
negative count (the error is logged and the handler returns).  The
listening branch (lines 186-199) is `OnReadEventListening` below. -/
def OnReadEvent (st : TcpState) (recvd : Option (List Nat)) :
    List Event × TcpState :=
  match recvd with
  | none => ([], st)
  | some bytes =>
    let data := bytes.take (BUF_SIZE - st.inbuf.length)
    let r := processInput (st.inbuf ++ data)
    let inbuf2 := if BUF_SIZE ≤ r.2.length then [] else r.2
    (r.1.map Event.packet, { st with inbuf := inbuf2 })

/-- The listening branch of `AsyncTCPSocket::OnReadEvent` (lines 186-199):
`accepted = false` models a failed `Accept` (logged, nothing raised);
otherwise a new non-listening transport is wrapped and signalled. -/
def OnReadEventListening (st : TcpState) (accepted : Bool) :
    List Event × TcpState :=
  if accepted then ([Event.newConnection], st) else ([], st)

/-- `AsyncTCPSocket::OnWriteEvent` (lines 222-228): flush again if bytes
remain buffered. -/
def OnWriteEvent (st : TcpState) (res : Int) : TcpState :=
  if 0 < st.outbuf.length then (Flush st res).2 else st

/-- Feeding a sequence of read deliveries to one transport, concatenating
the events each `OnReadEvent` raises. -/
def runReads (st : TcpState) : List (List Nat) → List Event × TcpState
  | [] => ([], st)
  | c :: cs =>
    let r := OnReadEvent st (some c)
    let r2 := runReads r.2 cs
    (r.1 ++ r2.1, r2.2)

/-- Both fill cursors lie within their buffer capacities
(`0 ≤ inpos_ ≤ insize_` and `0 ≤ outpos_ ≤ outsize_`; the lower bounds are
automatic for list lengths). -/
def BufWF (st : TcpState) : Prop :=
  st.inbuf.length ≤ BUF_SIZE ∧ st.outbuf.length ≤ BUF_SIZE

end Txmpp

namespace Hello

/-- Message kind constant from xmppthread.cc line 10. -/
def MSG_LOGIN : Nat := 1

/-- Message kind constant from xmppthread.cc line 11. -/
def MSG_DISCONNECT : Nat := 2

/-- Opaque connection settings carried by a login request
(`txmpp::XmppClientSettings`); only copied around by the dispatch code. -/
structure XmppClientSettings where
  payload : Nat
deriving Repr, DecidableEq

/-- The `LoginData` message payload (xmppthread.cc lines 13-18). -/
structure LoginData where
  xcs : XmppClientSettings
deriving Repr, DecidableEq

/-- A `txmpp::Message` as consumed by `XmppThread::OnMessage`: the
`message_id` and the optional `pdata` payload (null pointer = `none`). -/
structure Message where
  message_id : Nat
  pdata : Option LoginData
deriving Repr, DecidableEq

/-- Socket argument handed to `DoLogin`: the dispatch code constructs
`new txmpp::XmppAsyncSocketImpl(true)` at dispatch time. -/
inductive SocketArg where
  | xmppAsyncSocketImpl (tls : Bool)
deriving Repr, DecidableEq

/-- Auth argument handed to `DoLogin`: the dispatch code constructs
`new txmpp::PreXmppAuthImpl()` at dispatch time. -/
inductive AuthArg where
  | preXmppAuthImpl
deriving Repr, DecidableEq

/-- Observable actions of one `XmppThread::OnMessage` dispatch. -/
inductive PumpAction where
  | doLogin (xcs : XmppClientSettings) (socket : SocketArg) (auth : AuthArg)
  | doDisconnect
  | fatalAssert
deriving Repr, DecidableEq

/-- `XmppThread::OnMessage` (xmppthread.cc lines 45-57).  Returns the list
of actions performed and whether the message payload was freed
(`delete data`).  A login message with a null payload trips
`assert(pmsg->pdata)`; an unknown message id trips `assert(false)`. -/
def OnMessage (m : Message) : List PumpAction × Bool :=
  if m.message_id = MSG_LOGIN then
    match m.pdata with
    | some d =>
      ([.doLogin d.xcs (.xmppAsyncSocketImpl true) .preXmppAuthImpl], true)
    | none => ([.fatalAssert], false)
  else if m.message_id = MSG_DISCONNECT then
    ([.doDisconnect], false)
  else
    ([.fatalAssert], false)

end Hello

namespace Txmpp

theorem processInput_nil : processInput [] = ([], []) := by rw [processInput]

theorem processInput_one (b : Nat) : processInput [b] = ([], [b]) := by rw [processInput]

theorem processInput_cons (b0 b1 : Nat) (rest : List Nat) :
    processInput (b0 :: b1 :: rest) =
      if rest.length < b0 * 256 + b1 then ([], b0 :: b1 :: rest)
      else ((rest.take (b0 * 256 + b1)) :: (processInput (rest.drop (b0 * 256 + b1))).1,
            (processInput (rest.drop (b0 * 256 + b1))).2) := by
  rw [processInput]

theorem encodeFrame_length (p : List Nat) : (encodeFrame p).length = 2 + p.length := by
  simp [encodeFrame]; omega

theorem encodeFrame_of_le (p : List Nat) (h : p.length ≤ 65535) :
    encodeFrame p = p.length / 256 :: p.length % 256 :: p := by
  have : p.length % 65536 = p.length := Nat.mod_eq_of_lt (by omega)
  simp [encodeFrame, this]

theorem processInput_frame_append (p rest : List Nat) (h : p.length ≤ 65535) :
    processInput (encodeFrame p ++ rest) =
      (p :: (processInput rest).1, (processInput rest).2) := by
  rw [encodeFrame_of_le p h]
  rw [List.cons_append, List.cons_append, processInput_cons]
  have hlen : p.length / 256 * 256 + p.length % 256 = p.length := by
    have := Nat.div_add_mod p.length 256
    omega
  rw [hlen]
  have hnot : ¬ (p ++ rest).length < p.length := by
    simp [List.length_append]
  rw [if_neg hnot]
  rw [List.take_left, List.drop_left]

-- functional induction test
theorem processInput_suffix (data : List Nat) : (processInput data).2.IsSuffix data := by
  induction data using processInput.induct with
  | case1 => simp [processInput_nil]
  | case2 b => simp [processInput_one]
  | case3 b0 b1 rest hlt => simp [processInput_cons, hlt]
  | case4 b0 b1 rest hlt ih =>
      rw [processInput_cons, if_neg hlt]
      refine ih.trans ((List.drop_suffix _ _).trans ?_)
      exact (List.suffix_cons b1 rest).trans (List.suffix_cons b0 _)

end Txmpp

namespace Txmpp

theorem processInput_take_frame (p : List Nat) (h : p.length ≤ 65535) (m : Nat)
    (hm : m < 2 + p.length) :
    processInput ((encodeFrame p).take m) = ([], (encodeFrame p).take m) := by
  rw [encodeFrame_of_le p h]
  match m with
  | 0 => simp [processInput_nil]
  | 1 => simp [processInput_one]
  | (m + 2) =>
    simp only [List.take_succ_cons]
    rw [processInput_cons]
    have hlen : p.length / 256 * 256 + p.length % 256 = p.length := by
      have := Nat.div_add_mod p.length 256
      omega
    rw [hlen]
    have hcond : (p.take m).length < p.length := by
      simp [List.length_take]
      omega
    rw [if_pos hcond]

theorem TcpState_inbuf_eta (st : TcpState) (h : st.inbuf = []) :
    { st with inbuf := ([] : List Nat) } = st := by
  cases st
  simp_all

theorem OnReadEvent_nil_of_empty (st : TcpState) (h : st.inbuf = []) :
    OnReadEvent st (some []) = ([], st) := by
  simp [OnReadEvent, h, processInput_nil, BUF_SIZE, MAX_PACKET_SIZE, PKT_LEN_SIZE]
  exact TcpState_inbuf_eta st h

end Txmpp

namespace Txmpp

theorem runReads_nil_chunks (st : TcpState) (h : st.inbuf = []) (chunks : List (List Nat))
    (hc : chunks.flatten = []) : runReads st chunks = ([], st) := by
  induction chunks with
  | nil => simp [runReads]
  | cons c cs ih =>
    rw [List.flatten_cons] at hc
    have hc1 : c = [] := (List.append_eq_nil.mp hc).1
    have hc2 : cs.flatten = [] := (List.append_eq_nil.mp hc).2
    rw [runReads]
    simp [hc1, OnReadEvent_nil_of_empty st h, ih hc2]

theorem runReads_split_frame (p : List Nat) (h : p.length ≤ 65535)
    (chunks : List (List Nat)) :
    ∀ (t : Nat), t < (encodeFrame p).length →
      chunks.flatten = (encodeFrame p).drop t →
      runReads { freshState with inbuf := (encodeFrame p).take t } chunks
        = ([Event.packet p], freshState) := by
  induction chunks with
  | nil =>
    intro t ht hj
    exfalso
    simp only [List.flatten_nil] at hj
    have := List.drop_eq_nil_iff.mp hj.symm
    omega
  | cons c cs ih =>
    intro t ht hj
    have hFlen : (encodeFrame p).length = 2 + p.length := encodeFrame_length p
    rw [List.flatten_cons] at hj
    have hclen : c.length ≤ (encodeFrame p).length - t := by
      have h5 : (c ++ cs.flatten).length = ((encodeFrame p).drop t).length := by rw [hj]
      simp only [List.length_append, List.length_drop] at h5
      omega
    have hc : c = ((encodeFrame p).drop t).take c.length := by
      have h6 := congrArg (List.take c.length) hj
      rwa [List.take_left] at h6
    have hcs : cs.flatten = (encodeFrame p).drop (t + c.length) := by
      have h7 := congrArg (List.drop c.length) hj
      rwa [List.drop_left, List.drop_drop] at h7
    have hbufsize : BUF_SIZE = 65538 := by norm_num [BUF_SIZE, MAX_PACKET_SIZE, PKT_LEN_SIZE]
    have hinlen : ((encodeFrame p).take t).length = t := by
      simp [List.length_take]
      omega
    have hdata : c.take (BUF_SIZE - t) = c := by
      apply List.take_of_length_le
      omega
    have hbuf : (encodeFrame p).take t ++ c = (encodeFrame p).take (t + c.length) := by
      rw [List.take_add]
      rw [← hc]
    rw [runReads]
    rw [OnReadEvent]
    simp only [hinlen, hdata, hbuf]
    rcases Nat.lt_or_ge (t + c.length) (encodeFrame p).length with hlt | hge
    · rw [processInput_take_frame p h (t + c.length) (by omega)]
      have hnofill : ¬ BUF_SIZE ≤ ((encodeFrame p).take (t + c.length)).length := by
        simp [List.length_take]
        omega
      rw [if_neg hnofill]
      have ihres := ih (t + c.length) hlt hcs
      simp only [List.nil_append]
      exact ihres
    · have heq : t + c.length = (encodeFrame p).length := by omega
      rw [heq, List.take_length]
      have hPI : processInput (encodeFrame p) = ([p], []) := by
        have h8 := processInput_frame_append p [] h
        rw [List.append_nil] at h8
        rw [h8, processInput_nil]
      rw [hPI]
      have hnofill : ¬ BUF_SIZE ≤ ([] : List Nat).length := by simp [hbufsize]
      rw [if_neg hnofill]
      have hcs2 : cs.flatten = [] := by
        rw [hcs, heq, List.drop_length]
      rw [runReads_nil_chunks _ rfl cs hcs2]
      simp [freshState]

end Txmpp

namespace Txmpp

theorem processInput_single_frame (p : List Nat) (h : p.length ≤ 65535) :
    processInput (encodeFrame p) = ([p], []) := by
  have h8 := processInput_frame_append p [] h
  rw [List.append_nil] at h8
  rw [h8, processInput_nil]

theorem processInput_frames (ps : List (List Nat)) (h : ∀ p ∈ ps, p.length ≤ 65535) :
    processInput (ps.map encodeFrame).flatten = (ps, []) := by
  induction ps with
  | nil => simp [processInput_nil]
  | cons p ps ih =>
    rw [List.map_cons, List.flatten_cons]
    rw [processInput_frame_append p _ (h p (by simp))]
    rw [ih (fun q hq => h q (by simp [hq]))]

theorem processInput_progress (data : List Nat) :
    (processInput data).2 = data ∨ (processInput data).2.length + 2 ≤ data.length := by
  induction data using processInput.induct with
  | case1 => left; rw [processInput_nil]
  | case2 b => left; rw [processInput_one]
  | case3 b0 b1 rest hlt => left; rw [processInput_cons, if_pos hlt]
  | case4 b0 b1 rest hlt ih =>
    right
    rw [processInput_cons, if_neg hlt]
    have hdrop : (rest.drop (b0 * 256 + b1)).length ≤ rest.length := by
      simp [List.length_drop]
    rcases ih with heq | hle
    · have : (processInput (rest.drop (b0 * 256 + b1))).2.length
          = (rest.drop (b0 * 256 + b1)).length := by rw [heq]
      simp only [List.length_cons]
      omega
    · simp only [List.length_cons]
      omega

theorem Flush_inbuf (st : TcpState) (res : Int) : (Flush st res).2.inbuf = st.inbuf := by
  rw [Flush]
  split
  · rfl
  · split
    · rfl
    · rfl

theorem Flush_lastError (st : TcpState) (res : Int) :
    (Flush st res).2.lastError = st.lastError := by
  rw [Flush]
  split
  · rfl
  · split
    · rfl
    · rfl

theorem Flush_outbuf_suffix (st : TcpState) (res : Int) :
    (Flush st res).2.outbuf.IsSuffix st.outbuf := by
  rw [Flush]
  split
  · exact List.suffix_refl _
  · split
    · exact List.drop_suffix _ _
    · exact List.suffix_refl _

end Txmpp


namespace Txmpp

/-- C2: a `Send` issued while the outbound buffer is non-empty (send-blocked)
returns success with the original payload length and changes nothing: the
outbound buffer, its cursor, and the wire are exactly as before (the packet
is silently dropped, not queued). -/
theorem claim_C2_backpressure_drop (st : TcpState) (p : List Nat) (res : Int)
    (hb : st.outbuf ≠ []) (hp : p.length ≤ MAX_PACKET_SIZE) :
    Send st p res = ((p.length : Int), st) := by
  rw [Send]
  rw [if_neg (by omega : ¬ p.length > MAX_PACKET_SIZE)]
  rw [if_pos (fun h => hb (List.length_eq_zero.mp h))]

theorem claim_C2_witness :
    ((⟨[], [0, 1, 7], [], none⟩ : TcpState).outbuf ≠ [] ∧ ([5] : List Nat).length ≤ MAX_PACKET_SIZE)
    ∧ Send ⟨[], [0, 1, 7], [], none⟩ [5] 0 = ((1 : Int), ⟨[], [0, 1, 7], [], none⟩) :=
  ⟨⟨by simp, by norm_num [MAX_PACKET_SIZE]⟩,
   claim_C2_backpressure_drop ⟨[], [0, 1, 7], [], none⟩ [5] 0 (by simp)
     (by norm_num [MAX_PACKET_SIZE])⟩

/-- C3 as stated is false: `Send` can return a negative result without the
payload being oversized — here a 0-byte payload with the `Send` of the underlying socket
failing (returning -1) makes `AsyncTCPSocket::Send` return -1. -/
theorem claim_C3_counterexample :
    (Send freshState [] (-1)).1 < 0 ∧ ¬ (([] : List Nat).length > MAX_PACKET_SIZE) := by
  refine ⟨?_, by simp [MAX_PACKET_SIZE]⟩
  simp [Send, Flush, freshState, encodeFrame, MAX_PACKET_SIZE]

/-- C3 amended: if `len(p) > max_payload` then `Send` returns -1, sets
EMSGSIZE on the socket, and leaves both buffers and the wire untouched;
conversely, when `len(p) ≤ max_payload` this rejection never happens
(`Send` never calls `SetError`), though `Send` may still return a
non-positive value when the immediate flush makes no progress. -/
theorem claim_C3_oversize_reject (st : TcpState) (p : List Nat) (res : Int) :
    (p.length > MAX_PACKET_SIZE →
      Send st p res = (-1, { st with lastError := some EMSGSIZE }))
    ∧ (p.length ≤ MAX_PACKET_SIZE →
      (Send st p res).2.lastError = st.lastError) := by
  constructor
  · intro hgt
    rw [Send, if_pos hgt]
  · intro hle
    rw [Send, if_neg (by omega)]
    by_cases hb : st.outbuf.length ≠ 0
    · rw [if_pos hb]
    · rw [if_neg hb]
      by_cases hr : (Flush { st with outbuf := encodeFrame p } res).1 ≤ 0
      · rw [if_pos hr]
        exact Flush_lastError _ _
      · rw [if_neg hr]
        exact Flush_lastError _ _

theorem claim_C3_oversize_witness :
    Send freshState (List.replicate 65537 0) 0
      = (-1, { freshState with lastError := some EMSGSIZE })
    ∧ (Send freshState [5] 3).2.lastError = freshState.lastError :=
  ⟨(claim_C3_oversize_reject freshState (List.replicate 65537 0) 0).1
      (by rw [List.length_replicate]; norm_num [MAX_PACKET_SIZE]),
   (claim_C3_oversize_reject freshState [5] 3).2 (by norm_num [MAX_PACKET_SIZE])⟩

/-- C6: a non-send-blocked `Send` of an acceptable payload whose immediate
flush makes zero progress returns that non-positive flush result and leaves
the transport exactly as it was: the framed bytes are discarded (cursor back
to 0), nothing reaches the wire. -/
theorem claim_C6_flush_no_progress (st : TcpState) (p : List Nat) (res : Int)
    (hb : st.outbuf = []) (hp : p.length ≤ MAX_PACKET_SIZE) (hres : res ≤ 0) :
    Send st p res = (res, st) := by
  rw [Send, if_neg (by omega)]
  rw [if_neg (by simp [hb])]
  simp only [Flush, if_pos hres]
  cases st with
  | mk a b c d => simp_all

theorem claim_C6_witness :
    Send freshState [5] 0 = (0, freshState) :=
  claim_C6_flush_no_progress freshState [5] 0 rfl (by norm_num [MAX_PACKET_SIZE]) (by decide)

/-- C10: the frame-extraction loop makes progress — either it leaves the
buffer untouched (no complete frame) or it consumed at least the 2 prefix
bytes — and a frame with length prefix 0 is accepted, yielding a
packet-received event with an empty payload. -/
theorem claim_C10_zero_frame_progress (data rest : List Nat) :
    processInput (0 :: 0 :: rest)
        = (([] : List Nat) :: (processInput rest).1, (processInput rest).2)
    ∧ ((processInput data).2 = data ∨ (processInput data).2.length + 2 ≤ data.length) := by
  constructor
  · rw [processInput_cons]
    simp
  · exact processInput_progress data

end Txmpp

namespace Txmpp

/-- C7: after any (non-listening) read event, the inbound cursor is reset to
0 exactly when the extraction loop left the buffer completely full, and the
read handler raises only packet-received events — never a close or error
notification — and touches neither the outbound buffer nor the wire. -/
theorem claim_C7_overflow_reset (st : TcpState) (bytes : List Nat) :
    ((OnReadEvent st (some bytes)).1.all Event.isPacket = true)
    ∧ ((OnReadEvent st (some bytes)).2.inbuf =
        if BUF_SIZE ≤ (processInput (st.inbuf ++ bytes.take (BUF_SIZE - st.inbuf.length))).2.length
        then []
        else (processInput (st.inbuf ++ bytes.take (BUF_SIZE - st.inbuf.length))).2)
    ∧ (OnReadEvent st (some bytes)).2.outbuf = st.outbuf
    ∧ (OnReadEvent st (some bytes)).2.wire = st.wire := by
  refine ⟨?_, rfl, rfl, rfl⟩
  simp [OnReadEvent, List.all_map, Event.isPacket, Function.comp]

end Txmpp

namespace Hello

/-- C8: `XmppThread::OnMessage` dispatches a login message to exactly one
`DoLogin` call whose socket and auth arguments are freshly factory-built at
dispatch time (and frees the message payload), dispatches a disconnect
message to exactly one `DoDisconnect` call, and hits a fatal assertion on
any other message kind. -/
theorem claim_C8_dispatch (m : Message) (d : LoginData) :
    (m.message_id = MSG_LOGIN → m.pdata = some d →
      OnMessage m
        = ([.doLogin d.xcs (.xmppAsyncSocketImpl true) .preXmppAuthImpl], true))
    ∧ (m.message_id = MSG_DISCONNECT → OnMessage m = ([.doDisconnect], false))
    ∧ (m.message_id ≠ MSG_LOGIN → m.message_id ≠ MSG_DISCONNECT →
      OnMessage m = ([.fatalAssert], false)) := by
  refine ⟨?_, ?_, ?_⟩
  · intro h1 h2
    rw [OnMessage, if_pos h1, h2]
  · intro h2
    by_cases h1 : m.message_id = MSG_LOGIN
    · exfalso
      rw [h1] at h2
      simp [MSG_LOGIN, MSG_DISCONNECT] at h2
    · rw [OnMessage, if_neg h1, if_pos h2]
  · intro h1 h2
    rw [OnMessage, if_neg h1, if_neg h2]

theorem claim_C8_witness :
    OnMessage ⟨MSG_LOGIN, some ⟨⟨0⟩⟩⟩
        = ([.doLogin ⟨0⟩ (.xmppAsyncSocketImpl true) .preXmppAuthImpl], true)
    ∧ OnMessage ⟨MSG_DISCONNECT, none⟩ = ([.doDisconnect], false)
    ∧ OnMessage ⟨7, none⟩ = ([.fatalAssert], false) :=
  ⟨(claim_C8_dispatch ⟨MSG_LOGIN, some ⟨⟨0⟩⟩⟩ ⟨⟨0⟩⟩).1 rfl rfl,
   (claim_C8_dispatch ⟨MSG_DISCONNECT, none⟩ ⟨⟨0⟩⟩).2.1 rfl,
   (claim_C8_dispatch ⟨7, none⟩ ⟨⟨0⟩⟩).2.2 (by decide) (by decide)⟩

end Hello

namespace Txmpp

/-- C5: delivering the concatenation of N valid encoded frames in one read
event to a fresh transport raises exactly the N packet-received events, in
the original order, with the original payloads. -/
theorem claim_C5_multi_frame (ps : List (List Nat))
    (h : ∀ p ∈ ps, p.length ≤ 65535)
    (hfit : ((ps.map encodeFrame).flatten).length ≤ BUF_SIZE) :
    OnReadEvent freshState (some (ps.map encodeFrame).flatten)
      = (ps.map Event.packet, freshState) := by
  have hdata : (ps.map encodeFrame).flatten.take BUF_SIZE
      = (ps.map encodeFrame).flatten := List.take_of_length_le hfit
  rw [OnReadEvent]
  simp only [freshState, List.nil_append, List.length_nil, Nat.sub_zero, hdata]
  rw [processInput_frames ps h]
  simp [BUF_SIZE, MAX_PACKET_SIZE, PKT_LEN_SIZE]

theorem claim_C5_witness :
    (∀ p ∈ ([[7], [8, 9]] : List (List Nat)), p.length ≤ 65535)
    ∧ OnReadEvent freshState (some (([[7], [8, 9]] : List (List Nat)).map encodeFrame).flatten)
        = ([Event.packet [7], Event.packet [8, 9]], freshState) :=
  ⟨by decide,
   claim_C5_multi_frame [[7], [8, 9]] (by decide)
     (by norm_num [encodeFrame, BUF_SIZE, MAX_PACKET_SIZE, PKT_LEN_SIZE])⟩

/-- Delivering one whole valid frame to a fresh transport in a single read
event yields exactly one packet event carrying the framed payload. -/
theorem OnReadEvent_single_frame (p : List Nat) (h : p.length ≤ 65535) :
    OnReadEvent freshState (some (encodeFrame p)) = ([Event.packet p], freshState) := by
  have hdata : (encodeFrame p).take BUF_SIZE = encodeFrame p := by
    apply List.take_of_length_le
    rw [encodeFrame_length]
    simp [BUF_SIZE, MAX_PACKET_SIZE, PKT_LEN_SIZE]
    omega
  rw [OnReadEvent]
  simp only [freshState, List.nil_append, List.length_nil, Nat.sub_zero, hdata]
  rw [processInput_single_frame p h]
  simp [BUF_SIZE, MAX_PACKET_SIZE, PKT_LEN_SIZE]

/-- C4: any way of splitting one valid encoded frame into successive read
deliveries yields exactly one packet-received event carrying the framed
payload — the same outcome as delivering the whole frame in a single read
event. -/
theorem claim_C4_partial_reads (p : List Nat) (chunks : List (List Nat))
    (h : p.length ≤ 65535) (hj : chunks.flatten = encodeFrame p) :
    runReads freshState chunks = ([Event.packet p], freshState)
    ∧ OnReadEvent freshState (some (encodeFrame p)) = ([Event.packet p], freshState) := by
  constructor
  · have h0 := runReads_split_frame p h chunks 0
      (by rw [encodeFrame_length]; omega) (by simpa using hj)
    simpa [freshState] using h0
  · exact OnReadEvent_single_frame p h

theorem claim_C4_witness :
    ([[0], [1, 7]] : List (List Nat)).flatten = encodeFrame [7]
    ∧ runReads freshState [[0], [1, 7]] = ([Event.packet [7]], freshState)
    ∧ OnReadEvent freshState (some (encodeFrame [7])) = ([Event.packet [7]], freshState) :=
  ⟨rfl,
   (claim_C4_partial_reads [7] [[0], [1, 7]] (by norm_num) rfl).1,
   (claim_C4_partial_reads [7] [[0], [1, 7]] (by norm_num) rfl).2⟩

end Txmpp

namespace Txmpp

theorem Flush_BufWF (st : TcpState) (res : Int) (h : BufWF st) :
    BufWF (Flush st res).2 :=
  ⟨by rw [Flush_inbuf]; exact h.1,
   le_trans (Flush_outbuf_suffix st res).length_le h.2⟩

/-- C9: every transport operation keeps both cursors within capacity, and
the compaction done by a partial flush or by frame extraction keeps the
remaining bytes a contiguous suffix of the original buffer contents (their
relative order is preserved). -/
theorem claim_C9_buffer_invariants (st : TcpState) (p bytes : List Nat) (res : Int)
    (hwf : BufWF st) :
    BufWF (Send st p res).2 ∧ BufWF (SendRaw st p res).2 ∧ BufWF (Flush st res).2
    ∧ BufWF (OnReadEvent st (some bytes)).2 ∧ BufWF (OnWriteEvent st res)
    ∧ (Flush st res).2.outbuf.IsSuffix st.outbuf
    ∧ (processInput bytes).2.IsSuffix bytes := by
  refine ⟨?_, ?_, Flush_BufWF st res hwf, ?_, ?_,
    Flush_outbuf_suffix st res, processInput_suffix bytes⟩
  · rw [Send]
    by_cases h1 : p.length > MAX_PACKET_SIZE
    · rw [if_pos h1]
      exact ⟨hwf.1, hwf.2⟩
    · rw [if_neg h1]
      by_cases h2 : st.outbuf.length ≠ 0
      · rw [if_pos h2]
        exact hwf
      · rw [if_neg h2]
        have hwf1 : BufWF { st with outbuf := encodeFrame p } := by
          refine ⟨hwf.1, ?_⟩
          show (encodeFrame p).length ≤ BUF_SIZE
          rw [encodeFrame_length]
          simp only [BUF_SIZE, MAX_PACKET_SIZE, PKT_LEN_SIZE] at *
          omega
        by_cases h3 : (Flush { st with outbuf := encodeFrame p } res).1 ≤ 0
        · rw [if_pos h3]
          exact ⟨(Flush_BufWF _ res hwf1).1, by simp⟩
        · rw [if_neg h3]
          exact Flush_BufWF _ res hwf1
  · rw [SendRaw]
    by_cases h1 : st.outbuf.length + p.length > BUF_SIZE
    · rw [if_pos h1]
      exact ⟨hwf.1, hwf.2⟩
    · rw [if_neg h1]
      apply Flush_BufWF
      refine ⟨hwf.1, ?_⟩
      show (st.outbuf ++ p).length ≤ BUF_SIZE
      rw [List.length_append]
      omega
  · refine ⟨?_, hwf.2⟩
    show (if BUF_SIZE ≤ (processInput (st.inbuf ++ bytes.take (BUF_SIZE - st.inbuf.length))).2.length
          then ([] : List Nat)
          else (processInput (st.inbuf ++ bytes.take (BUF_SIZE - st.inbuf.length))).2).length
        ≤ BUF_SIZE
    split
    · simp
    · next hcond => omega
  · rw [OnWriteEvent]
    split
    · exact Flush_BufWF st res hwf
    · exact hwf

theorem claim_C9_witness :
    BufWF (Send freshState [5] 1).2 ∧ BufWF (SendRaw freshState [5] 1).2
    ∧ BufWF (Flush freshState 1).2 ∧ BufWF (OnReadEvent freshState (some [0, 0])).2
    ∧ BufWF (OnWriteEvent freshState 1)
    ∧ (Flush freshState 1).2.outbuf.IsSuffix freshState.outbuf
    ∧ (processInput [0, 0]).2.IsSuffix [0, 0] :=
  claim_C9_buffer_invariants freshState [5] [0, 0] 1
    ⟨by simp [freshState], by simp [freshState]⟩

end Txmpp

namespace Txmpp

/-- C1 amended: for payloads of at most 65535 bytes (the largest length the
2-byte prefix can represent), a non-send-blocked `Send` whose flush makes
progress reports success, and once the remaining buffered bytes drain on
write-readiness the wire carries exactly the big-endian 2-byte length
prefix followed by the payload; feeding that frame to a fresh peer
transport yields exactly one packet-received event with the payload. -/
theorem claim_C1_roundtrip (p : List Nat) (res1 : Int) (h : p.length ≤ 65535)
    (hpos : 0 < res1) (hle : res1.toNat ≤ (encodeFrame p).length) :
    (Send freshState p res1).1 = (p.length : Int)
    ∧ (OnWriteEvent (Send freshState p res1).2
        (((Send freshState p res1).2.outbuf.length : Int))).wire = encodeFrame p
    ∧ encodeFrame p = p.length / 256 :: p.length % 256 :: p
    ∧ OnReadEvent freshState (some (encodeFrame p)) = ([Event.packet p], freshState) := by
  have hMAX : ¬ p.length > MAX_PACKET_SIZE := by
    simp only [MAX_PACKET_SIZE]
    omega
  have hr1 : ¬ res1 ≤ 0 := by omega
  have hflush : Flush { freshState with outbuf := encodeFrame p } res1
      = (res1, ⟨[], (encodeFrame p).drop res1.toNat, (encodeFrame p).take res1.toNat, none⟩) := by
    rw [Flush, if_neg hr1]
    rw [if_pos (by simpa [freshState] using hle)]
    simp [freshState]
  have hsend : Send freshState p res1
      = ((p.length : Int),
         ⟨[], (encodeFrame p).drop res1.toNat, (encodeFrame p).take res1.toNat, none⟩) := by
    rw [Send, if_neg hMAX]
    rw [if_neg (by simp [freshState])]
    simp only [hflush, hr1, if_false]
  refine ⟨by rw [hsend], ?_, encodeFrame_of_le p h, OnReadEvent_single_frame p h⟩
  rw [hsend]
  by_cases hdrop : (encodeFrame p).drop res1.toNat = []
  · rw [OnWriteEvent]
    rw [if_neg (by simp [hdrop])]
    have hge : (encodeFrame p).length ≤ res1.toNat := List.drop_eq_nil_iff.mp hdrop
    show (encodeFrame p).take res1.toNat = encodeFrame p
    exact List.take_of_length_le hge
  · rw [OnWriteEvent]
    have hlenpos : 0 < ((encodeFrame p).drop res1.toNat).length :=
      List.length_pos.mpr hdrop
    rw [if_pos (by simpa using hlenpos)]
    have hc1 : ¬ ((((encodeFrame p).drop res1.toNat).length : Int) ≤ 0) := by
      have : (0 : Int) < (((encodeFrame p).drop res1.toNat).length : Int) := by
        exact_mod_cast hlenpos
      omega
    rw [Flush, if_neg hc1]
    rw [if_pos (by simp)]
    show (encodeFrame p).take res1.toNat
        ++ ((encodeFrame p).drop res1.toNat).take
             ((((encodeFrame p).drop res1.toNat).length : Int)).toNat
      = encodeFrame p
    simp only [Int.toNat_natCast, List.take_length, List.take_append_drop]

end Txmpp

namespace Txmpp

theorem claim_C1_witness :
    (Send freshState [7] 1).1 = (([7] : List Nat).length : Int)
    ∧ (OnWriteEvent (Send freshState [7] 1).2
        (((Send freshState [7] 1).2.outbuf.length : Int))).wire = encodeFrame [7]
    ∧ encodeFrame [7] = ([7] : List Nat).length / 256 :: ([7] : List Nat).length % 256 :: [7]
    ∧ OnReadEvent freshState (some (encodeFrame [7])) = ([Event.packet [7]], freshState) :=
  claim_C1_roundtrip [7] 1 (by norm_num) (by norm_num) (by decide)

/-- Any 65536-byte payload defeats the round-trip claim: the length prefix
wraps to 0 under the `uint16` cast, so the first packet event the peer
raises has an empty payload. -/
theorem sendRecv_wrap_at_65536 (P : List Nat) (hPlen : P.length = 65536) :
    (OnReadEvent freshState (some (Send freshState P 65538).2.wire)).1
      ≠ [Event.packet P] := by
  have hF : encodeFrame P = 0 :: 0 :: P := by
    rw [encodeFrame, hPlen]
  have hFlen : (encodeFrame P).length = 65538 := by
    rw [encodeFrame_length, hPlen]
  have hMAX : ¬ P.length > MAX_PACKET_SIZE := by
    rw [hPlen]
    norm_num [MAX_PACKET_SIZE]
  have hdrop : (encodeFrame P).drop ((65538 : Int).toNat) = [] := by
    apply List.drop_eq_nil_iff.mpr
    rw [hFlen]
    decide
  have htk : (encodeFrame P).take ((65538 : Int).toNat) = encodeFrame P := by
    apply List.take_of_length_le
    rw [hFlen]
    decide
  have hflush : Flush { freshState with outbuf := encodeFrame P } 65538
      = (65538, ⟨[], [], encodeFrame P, none⟩) := by
    rw [Flush, if_neg (by norm_num)]
    rw [if_pos (by rw [show ({ freshState with outbuf := encodeFrame P } : TcpState).outbuf.length
        = (encodeFrame P).length from rfl, hFlen]; decide)]
    show (_, (⟨[], (encodeFrame P).drop ((65538 : Int).toNat),
        [] ++ (encodeFrame P).take ((65538 : Int).toNat), none⟩ : TcpState)) = _
    rw [hdrop, htk, List.nil_append]
  have hwire : (Send freshState P 65538).2.wire = encodeFrame P := by
    rw [Send, if_neg hMAX, if_neg (by simp [freshState])]
    have h38 : ¬ ((65538 : Int) ≤ 0) := by norm_num
    simp only [hflush, h38, if_false]
  rw [hwire]
  have htake2 : (encodeFrame P).take BUF_SIZE = encodeFrame P := by
    apply List.take_of_length_le
    rw [hFlen]
    norm_num [BUF_SIZE, MAX_PACKET_SIZE, PKT_LEN_SIZE]
  have hPI : processInput (encodeFrame P)
      = ([] :: (processInput P).1, (processInput P).2) := by
    rw [hF, processInput_cons]
    rw [if_neg (by simp)]
    simp
  have hEv : (OnReadEvent freshState (some (encodeFrame P))).1
      = Event.packet [] :: (processInput P).1.map Event.packet := by
    rw [OnReadEvent]
    simp only [freshState, List.nil_append, List.length_nil, Nat.sub_zero, htake2]
    rw [hPI]
    simp
  rw [hEv]
  intro heq
  have h1 : Event.packet ([] : List Nat) = Event.packet P :=
    ((List.cons.injEq _ _ _ _).mp heq).1
  have h2 : ([] : List Nat) = P := by
    injection h1
  rw [← h2] at hPlen
  simp at hPlen

/-- C1 as stated is false at the boundary `len(p) = max_payload = 65536`:
the `static_cast<uint16>` wraps the length prefix to 0, so the wire frame
begins with prefix bytes 0,0 (not a big-endian 65536) and the first
packet-received event on the peer carries an empty payload — not the
65536-byte one the claim promises as the only event. -/
theorem claim_C1_counterexample :
    (OnReadEvent freshState
        (some (Send freshState (List.replicate 65536 0) 65538).2.wire)).1
      ≠ [Event.packet (List.replicate 65536 0)] :=
  sendRecv_wrap_at_65536 (List.replicate 65536 0) (by rw [List.length_replicate])

end Txmpp
